import Mathlib

/-!
# birpc — shallow embedding and verification of the peer engine

This file embeds, in Lean, the parts of the `birpc` bi-directional RPC
engine (package `birpc`, file `client.go`, plus the `Server` code) that the
specification's claims are about, and proves or refutes each claim.

Modelling conventions:
* Go maps become association lists with `alookup` / `ainsert` / `aerase`.
* Go errors become the inductive `GoError`; a codec operation that may fail
  takes its outcome (`Option GoError`) as an oracle argument, since the
  codec is an external collaborator.
* Side effects on the codec, the locks and the channels are recorded in an
  explicit trace of `Action`s, in the order the Go code performs them.
* `sync.Mutex` acquisition appears as `lockSending` / `lockMutex` actions;
  the mutual exclusion a mutex provides is not re-proved, only which paths
  acquire which lock.
* A Go channel send with `select`/`default` (`Call.done`) is modelled by
  `callDone` on an explicit buffer occupancy `DoneChan`.
* The source's `uint64` sequence counter is a `Nat` reduced `% 2^64`
  exactly where the source increments it (`c.seq++` wraps in Go).
-/

namespace Birpc

/-- Association-list lookup, the model of Go map indexing `m[k]`. -/
def alookup {κ α : Type} [DecidableEq κ] : List (κ × α) → κ → Option α
  | [], _ => none
  | (k2, v) :: rest, k => if k2 = k then some v else alookup rest k

/-- Model of Go `delete(m, k)`. -/
def aerase {κ α : Type} [DecidableEq κ] (m : List (κ × α)) (k : κ) : List (κ × α) :=
  m.filter (fun p => p.1 ≠ k)

/-- Model of Go map assignment `m[k] = v` (overwrites any previous binding). -/
def ainsert {κ α : Type} [DecidableEq κ] (m : List (κ × α)) (k : κ) (v : α) : List (κ × α) :=
  (k, v) :: aerase m k

theorem alookup_ainsert {κ α : Type} [DecidableEq κ] (m : List (κ × α)) (k : κ) (v : α) :
    alookup (ainsert m k v) k = some v := by
  simp [ainsert, alookup]

theorem alookup_aerase {κ α : Type} [DecidableEq κ] (m : List (κ × α)) (k : κ) :
    alookup (aerase m k) k = none := by
  induction m with
  | nil => rfl
  | cons p rest ih =>
    by_cases h : p.1 = k
    · simpa [aerase, h] using ih
    · simpa [aerase, alookup, h] using ih

/-- The error values the engine manipulates (Go `error` values). -/
inductive GoError
  | errShutdown        -- birpc.ErrShutdown = "connection is shut down"
  | canceled           -- context.Canceled
  | ioEOF              -- io.EOF
  | errUnexpectedEOF   -- io.ErrUnexpectedEOF
  | serverError (msg : String)   -- birpc.ServerError(resp.Error)
  | errorString (msg : String)   -- errors.New(msg)
  deriving DecidableEq, Repr

/-- `err.Error()` for the errors above (messages from Go's stdlib / client.go). -/
def GoError.msg : GoError → String
  | .errShutdown => "connection is shut down"
  | .canceled => "context canceled"
  | .ioEOF => "EOF"
  | .errUnexpectedEOF => "unexpected EOF"
  | .serverError m => m
  | .errorString m => m

/-- Wire request header: `type Request struct { Seq uint64; Method string }`. -/
structure Request where
  seq : Nat
  method : String
  deriving DecidableEq, Repr

/-- Wire response header: `type Response struct { Seq uint64; Error string }`. -/
structure Response where
  seq : Nat
  error : String
  deriving DecidableEq, Repr

/-- The buffered channel `Call.Done`: occupancy and capacity. -/
structure DoneChan where
  len : Nat
  cap : Nat
  deriving DecidableEq, Repr

/-- An outbound `Call` record (client.go).  `strobes` is a ghost counter of
how many times `call.done()` has been invoked on this call; a delivery into
the channel shows up as `done.len` growing. -/
structure Call where
  method : String
  seq : Nat
  err : Option GoError
  done : DoneChan
  strobes : Nat
  deriving DecidableEq, Repr

/-- `func (call *Call) done()` (client.go): a non-blocking send of the call
on its own `Done` channel; when the buffer is full the delivery is dropped
(the code logs "discarding Call reply due to insufficient Done chan
capacity"). -/
def callDone (c : Call) : Call :=
  if c.done.len < c.done.cap then
    { c with done := ⟨c.done.len + 1, c.done.cap⟩, strobes := c.strobes + 1 }
  else
    { c with strobes := c.strobes + 1 }

/-- The value each message body was given with, for `WriteResponse`. -/
inductive WireBody
  | headerItself (r : Response)  -- the Response header passed again as the body
  | replyValue                   -- the handler's reply value
  deriving DecidableEq, Repr

/-- One observable step of the engine: a lock operation, a codec operation,
a channel strobe, or a lifecycle signal, in program order. -/
inductive Action
  | lockSending | unlockSending        -- c.sending.Lock / Unlock
  | lockMutex | unlockMutex            -- c.mutex.Lock / Unlock
  | writeReq (seq : Nat) (method : String)                 -- c.codec.WriteRequest
  | writeResp (seq : Nat) (error : String) (body : WireBody) -- c.codec.WriteResponse
  | readReqBody                        -- c.codec.ReadRequestBody
  | readRespBody (discard : Bool)      -- c.codec.ReadResponseBody (nil ⇒ discard)
  | strobeDone (seq : Nat)             -- call.done()
  | completeCall (seq : Nat) (e : GoError)  -- shutdown sweep: call.Error = e; call.done()
  | closeDisconnect                    -- close(c.disconnect)
  | closeCodec                         -- c.codec.Close()
  | pendingStart (seq : Nat)           -- pending.Start(req.Seq)
  | pendingCancel (seq : Nat)          -- pending.Cancel(req.Seq)
  | invokeHandler (method : String)    -- method.fn.Call(...)
  deriving DecidableEq, Repr

/-- One beyond the largest `uint64` value: the modulus of Go's `uint64`
arithmetic, under which `c.seq++` wraps. -/
def uint64Size : Nat := 2 ^ 64

theorem uint64Size_pos : 0 < uint64Size := by norm_num [uint64Size]

/-- The mutable fields of `Client` the claims are about (client.go).
`seq` holds the value of the `uint64` field `Client.seq`; every increment
is taken `% uint64Size`, so reachable states keep it below `uint64Size`. -/
structure ClientState where
  seq : Nat
  pending : List (Nat × Call)
  closing : Bool
  shutdown : Bool
  server : Bool
  deriving Repr

/-- The state part of `NewClientWithCodec` (client.go): seq starts at 1
(0 means notification), empty pending table, flags down. -/
def initClient : ClientState :=
  { seq := 1, pending := [], closing := false, shutdown := false, server := false }

/-- Result of one `send` invocation. -/
structure SendOut where
  state : ClientState
  call : Call
  assigned : Option Nat   -- ghost: the seq this send assigned, if it reached assignment
  trace : List Action
  deriving Repr

/-- `func (c *Client) send(call *Call)` (client.go), with the outcome of
`codec.WriteRequest` supplied as the oracle `writeErr`. -/
def sendGo (s : ClientState) (call : Call) (writeErr : Option GoError) : SendOut :=
  if s.shutdown || s.closing then
    -- shutdown/closing: complete with ErrShutdown, touch nothing
    { state := s, call := callDone { call with err := some .errShutdown },
      assigned := none,
      trace := [.lockSending, .lockMutex, .unlockMutex, .strobeDone call.seq, .unlockSending] }
  else if call.seq ≠ 0 then
    -- already canceled before send: complete with context.Canceled
    { state := s, call := callDone { call with err := some .canceled },
      assigned := none,
      trace := [.lockSending, .lockMutex, .unlockMutex, .strobeDone call.seq, .unlockSending] }
  else
    -- seq := c.seq; c.seq++ (uint64, wraps); call.seq = seq; c.pending[seq] = call
    let seq := s.seq
    let call1 : Call := { call with seq := seq }
    let s1 : ClientState :=
      { s with seq := (s.seq + 1) % uint64Size, pending := ainsert s.pending seq call1 }
    match writeErr with
    | none =>
      { state := s1, call := call1, assigned := some seq,
        trace := [.lockSending, .lockMutex, .unlockMutex,
                  .writeReq seq call.method, .unlockSending] }
    | some e =>
      -- write failed: call = c.pending[seq]; delete(c.pending, seq); complete if found
      match alookup s1.pending seq with
      | some c2 =>
        { state := { s1 with pending := aerase s1.pending seq },
          call := callDone { c2 with err := some e }, assigned := some seq,
          trace := [.lockSending, .lockMutex, .unlockMutex, .writeReq seq call.method,
                    .lockMutex, .unlockMutex, .strobeDone seq, .unlockSending] }
      | none =>
        { state := { s1 with pending := aerase s1.pending seq },
          call := call1, assigned := some seq,
          trace := [.lockSending, .lockMutex, .unlockMutex, .writeReq seq call.method,
                    .lockMutex, .unlockMutex, .unlockSending] }

/-- `func (c *Client) Notify(method string, args interface{}) error`
(client.go): under the sending lock, emit a request with `Seq = 0`;
rejected with `ErrShutdown` when shut down or closing.  The outcome of
`codec.WriteRequest` is the oracle `writeErr`. -/
def notify (s : ClientState) (method : String) (writeErr : Option GoError) :
    ClientState × Option GoError × List Action :=
  if s.shutdown || s.closing then
    (s, some .errShutdown, [.lockSending, .unlockSending])
  else
    (s, writeErr, [.lockSending, .writeReq 0 method, .unlockSending])

/-- `func (c *Client) readResponse(resp *Response) error` (client.go):
look up and delete `pending[resp.Seq]`; if absent, drain the body; if the
response carries an error, record it as a `ServerError` and strobe; else
decode the body into the reply (a decode failure becomes the call's error)
and strobe.  `bodyErr` is the oracle outcome of `ReadResponseBody`.
Returns (new pending table, the completed call if any, the function's
error result, trace). -/
def readResponse (pending : List (Nat × Call)) (resp : Response) (bodyErr : Option GoError) :
    List (Nat × Call) × Option Call × Option GoError × List Action :=
  let seq := resp.seq
  let found := alookup pending seq
  let pending := aerase pending seq
  match found with
  | none =>
    (pending, none,
     bodyErr.map (fun e => .errorString ("reading error body: " ++ e.msg)),
     [.lockMutex, .unlockMutex, .readRespBody true])
  | some call =>
    if resp.error ≠ "" then
      let call := callDone { call with err := some (.serverError resp.error) }
      (pending, some call,
       bodyErr.map (fun e => .errorString ("reading error body: " ++ e.msg)),
       [.lockMutex, .unlockMutex, .readRespBody true, .strobeDone seq])
    else
      let call :=
        match bodyErr with
        | some e => { call with err := some (.errorString ("reading body " ++ e.msg)) }
        | none => call
      (pending, some (callDone call), bodyErr,
       [.lockMutex, .unlockMutex, .readRespBody false, .strobeDone seq])

/-- A registered handler descriptor (`type handler struct` in the Server
code); reflective fields are summarised by an identifier for the function,
since no claim depends on the reflected types. -/
structure HandlerDesc where
  fnId : String
  deriving DecidableEq, Repr

/-- The error literal of the unknown-method response (client.go,
`readRequest`). -/
def cantFind (method : String) : String := "birpc: can\x27t find method " ++ method

/-- `func (c *Client) readRequest(req *Request, pending *svc.Pending) error`
(client.go): unknown method ⇒ write back a response whose header is
`{Seq: req.Seq, Error: "birpc: can't find method <name>"}` and whose body is
that same Response value, without reading the request body; known method ⇒
read the request body and dispatch `handleRequest`.  Oracles: `bodyErr` for
`ReadRequestBody`, `writeErr` for the unknown-method `WriteResponse`. -/
def readRequest (handlers : List (String × HandlerDesc)) (req : Request)
    (bodyErr writeErr : Option GoError) : Option GoError × List Action :=
  match alookup handlers req.method with
  | none =>
    let resp : Response := { seq := req.seq, error := cantFind req.method }
    (writeErr, [.writeResp resp.seq resp.error (.headerItself resp)])
  | some _ =>
    match bodyErr with
    | some e => (some e, [.readReqBody])
    | none => (none, [.readReqBody, .invokeHandler req.method])

/-- `func (c *Client) handleRequest(...)` (client.go): start the inbound
cancellation token, invoke the handler, and — only when `req.Seq ≠ 0` —
write a response carrying the handler's reply with the handler's error
stringified (`handlerErr`); a notification's reply is dropped.  The
deferred `pending.Cancel` runs last. -/
def handleRequest (req : Request) (handlerErr : Option String) : List Action :=
  [.pendingStart req.seq, .invokeHandler req.method] ++
  (if req.seq = 0 then []
   else [.writeResp req.seq (handlerErr.getD "") .replyValue]) ++
  [.pendingCancel req.seq]

/-- The EOF translation in the terminal part of `readLoop` (client.go):
`io.EOF` becomes `ErrShutdown` when the local side asked to close, else
`io.ErrUnexpectedEOF`; any other loop-breaking error passes through. -/
def exitErr (err0 : GoError) (closing : Bool) : GoError :=
  if err0 = .ioEOF then (if closing then .errShutdown else .errUnexpectedEOF) else err0

/-- The terminal sweep of `func (c *Client) readLoop()` (client.go, after
the read loop breaks with error `err0`): set `shutdown`; translate the
error via `exitErr`; give every pending call that error and strobe it;
close the disconnect channel; close the codec unless already closing.
Returns (final state, translated error, trace). -/
def readLoopExit (s : ClientState) (err0 : GoError) :
    ClientState × GoError × List Action :=
  ({ s with shutdown := true,
            pending := s.pending.map
              (fun p => (p.1, callDone { p.2 with err := some (exitErr err0 s.closing) })) },
   exitErr err0 s.closing,
   [.lockSending, .lockMutex]
     ++ s.pending.map (fun p => .completeCall p.1 (exitErr err0 s.closing))
     ++ [.unlockMutex, .unlockSending, .closeDisconnect]
     ++ (if s.closing then [] else [.closeCodec]))

/-- Method name of the built-in cancel service. -/
def goRPCCancelName : String := "_goRPC_.Cancel"

/-- `svc.CancelArgs`: the argument payload of a `_goRPC_.Cancel` request,
carrying the seq whose inbound dispatch is to be cancelled. -/
structure CancelArgs where
  seq : Nat
  deriving DecidableEq, Repr

/-- The `ctx.Done()` branch of `func (client *Client) Call(...)`
(client.go): remove the call's seq from the pending table; when the call
was never sent (`seq == 0`) stamp `call.seq = 1` to veto a concurrent
send; when it was sent (`seq ≠ 0`) and its entry was still pending, issue
`client.Go("_goRPC_.Cancel", &svc.CancelArgs{Seq: seq}, nil, ch)` — the
third component records that issued call as its method name paired with
its argument payload (`none` when no cancel request is issued); return
`ctx.Err()`. -/
def callCtxCancel (pending : List (Nat × Call)) (call : Call) (ctxErr : GoError) :
    List (Nat × Call) × Call × Option (String × CancelArgs) × GoError :=
  let seq := call.seq
  let ok := (alookup pending seq).isSome
  let pending := aerase pending seq
  let call := if seq = 0 then { call with seq := 1 } else call
  (pending, call,
   if seq ≠ 0 ∧ ok = true then some (goRPCCancelName, ⟨seq⟩) else none,
   ctxErr)

/-- The descriptor registered for `(&svc.GoRPC{}).Cancel`. -/
def cancelHandlerDesc : HandlerDesc := ⟨"GoRPC.Cancel"⟩

/-- `func addHandler(handlers, mname, handlerFunc)` (Server code): panics
on duplicate name, else stores the descriptor.  The panic is modelled as
`none`; the reflective shape validation always passes for the handlers the
claims mention and is not modelled. -/
def addHandlerGo (hs : List (String × HandlerDesc)) (name : String) (h : HandlerDesc) :
    Option (List (String × HandlerDesc)) :=
  if (alookup hs name).isSome then none else some (ainsert hs name h)

/-- The handler map of a peer built by `NewClientWithCodec` (client.go):
starts empty, then `c.Handle("_goRPC_.Cancel", (&svc.GoRPC{}).Cancel)`. -/
def newClientHandlers : List (String × HandlerDesc) :=
  ainsert [] goRPCCancelName cancelHandlerDesc

/-- The handler map of `NewServer()` (Server code): empty — no built-in
registration happens there. -/
def newServerHandlers : List (String × HandlerDesc) := []

/-- The handler map of the peer created by
`func (s *Server) ServeCodecWithState(codec, state)` (Server code): the
peer starts as `NewClientWithCodec(codec)` — which registers the cancel
service — but the subsequent assignment `c.handlers = s.handlers` replaces
the whole map with the server's. -/
def serveCodecWithStateHandlers (serverHandlers : List (String × HandlerDesc)) :
    List (String × HandlerDesc) :=
  serverHandlers

/-- Is this action a codec write (`WriteRequest` or `WriteResponse`)? -/
def isCodecWrite : Action → Bool
  | .writeReq _ _ => true
  | .writeResp _ _ _ => true
  | _ => false

/-- Checks that every codec write in the trace happens while the sending
lock is held at depth > 0, starting from depth `d`. -/
def writesUnderSendLock : List Action → Nat → Bool
  | [], _ => true
  | .lockSending :: rest, d => writesUnderSendLock rest (d + 1)
  | .unlockSending :: rest, d => writesUnderSendLock rest (d - 1)
  | a :: rest, d => (!isCodecWrite a || d != 0) && writesUnderSendLock rest d

/-- The phases one outbound `Call` moves through in client.go: `unsent`
(`call.seq = 0`, not in the pending table), `pendingP` (inserted by `send`),
`completed` (its error is set and `call.done()` was invoked), `removedP`
(deleted from the table by the `ctx.Done()` branch of `Call` without a
strobe). -/
inductive CallPhase
  | unsent
  | pendingP
  | completed
  | removedP
  deriving DecidableEq, Repr

/-- The transitions client.go performs on one outbound call, labelled with
the number of `call.done()` strobes that path performs on it:
* `sendShutdown` / `sendPrecanceled`: the two early returns of `send`;
* `ctxStampSeq`: the `ctx.Done()` branch of `Call` stamping `seq = 1` on a
  not-yet-sent call (no strobe; the call later hits `sendPrecanceled`);
* `sendOk`: `send` assigns a seq and inserts into the pending table;
* `writeFail`: `send` deletes the entry after a failed write and strobes;
* `respOk` / `respErr`: `readResponse` deletes the entry and strobes;
* `sweep`: the readLoop terminal sweep strobes every pending entry;
* `cancelRemove`: the `ctx.Done()` branch of `Call` deletes the entry of a
  sent call without strobing it. -/
inductive CallStep : CallPhase → Nat → CallPhase → Prop
  | sendShutdown : CallStep .unsent 1 .completed
  | sendPrecanceled : CallStep .unsent 1 .completed
  | ctxStampSeq : CallStep .unsent 0 .unsent
  | sendOk : CallStep .unsent 0 .pendingP
  | writeFail : CallStep .pendingP 1 .completed
  | respOk : CallStep .pendingP 1 .completed
  | respErr : CallStep .pendingP 1 .completed
  | sweep : CallStep .pendingP 1 .completed
  | cancelRemove : CallStep .pendingP 0 .removedP

/-- A sequence of `CallStep`s, accumulating the strobe count. -/
inductive CallTrace : CallPhase → Nat → CallPhase → Prop
  | nil (p : CallPhase) : CallTrace p 0 p
  | cons {p q r : CallPhase} {n m : Nat} :
      CallStep p n q → CallTrace q m r → CallTrace p (n + m) r

/-- Run a sequence of `send` invocations; each element of `ops` supplies
the call handed to `send` and the oracle outcome of its `WriteRequest`.
Returns the final client state and the list of seqs assigned, in order. -/
def runSends (s : ClientState) : List (Call × Option GoError) → ClientState × List Nat
  | [] => (s, [])
  | (c, w) :: rest =>
    let out := sendGo s c w
    let tail := runSends out.state rest
    (tail.1, out.assigned.toList ++ tail.2)

/-- Every invocation of `call.done()` bumps the ghost strobe counter by
exactly one, full channel or not. -/
theorem callDone_strobes (c : Call) : (callDone c).strobes = c.strobes + 1 := by
  unfold callDone; split <;> rfl

/-- `call.done()` does not change the call's error field. -/
theorem callDone_err (c : Call) : (callDone c).err = c.err := by
  unfold callDone; split <;> rfl

/-- A sample fresh call as `Go` allocates it (seq 0, default buffer 10). -/
def sampleCall : Call :=
  { method := "m", seq := 0, err := none, done := ⟨0, 10⟩, strobes := 0 }

/-- A sample call that has been sent under seq 4. -/
def sentCall : Call :=
  { method := "m", seq := 4, err := none, done := ⟨0, 2⟩, strobes := 0 }

/-- C1: the spec says the cancel service is registered under
`_goRPC_.Cancel` on every peer.  `NewClientWithCodec` does register it,
but `ServeCodecWithState` replaces the peer's handler map wholesale with
the server's map (`c.handlers = s.handlers`), and `NewServer` never
registers the cancel service — so on a server-accepted peer the lookup
fails.  This theorem records both facts; the code contradicts the clear
intent (the engine itself fires `_goRPC_.Cancel` at its peer from `Call`),
so this is a code bug, not a spec error. -/
theorem cancel_service_registration :
    alookup newClientHandlers goRPCCancelName = some cancelHandlerDesc ∧
    serveCodecWithStateHandlers newServerHandlers = newServerHandlers ∧
    alookup (serveCodecWithStateHandlers newServerHandlers) goRPCCancelName = none := by
  refine ⟨?_, rfl, rfl⟩
  simp [newClientHandlers, alookup_ainsert]

/-- C6: an inbound request whose method has no registered handler yields
exactly one response write whose seq is the request's seq and whose error
is the literal string "birpc: can't find method <name>", and
`ReadRequestBody` is never called for that request. -/
theorem unknown_method_response (handlers : List (String × HandlerDesc)) (req : Request)
    (be we : Option GoError) (h : alookup handlers req.method = none) :
    (readRequest handlers req be we).2 =
      [Action.writeResp req.seq (cantFind req.method)
        (.headerItself { seq := req.seq, error := cantFind req.method })] ∧
    Action.readReqBody ∉ (readRequest handlers req be we).2 := by
  simp [readRequest, h]

/-- Claim C6 witness: a concrete unknown method "foo" under an empty
handler map. -/
theorem unknown_method_response_witness :
    (readRequest [] ⟨5, "foo"⟩ none none).2 =
      [Action.writeResp 5 (cantFind "foo")
        (.headerItself { seq := 5, error := cantFind "foo" })] ∧
    Action.readReqBody ∉ (readRequest [] ⟨5, "foo"⟩ none none).2 :=
  unknown_method_response [] ⟨5, "foo"⟩ none none rfl

/-- C10: on the unknown-method path, `WriteResponse(resp, resp)` passes the
very Response header value (seq and error string) as the body as well. -/
theorem unknown_method_body_is_header (handlers : List (String × HandlerDesc)) (req : Request)
    (be we : Option GoError) (h : alookup handlers req.method = none) :
    ∃ r : Response, r.seq = req.seq ∧ r.error = cantFind req.method ∧
      (readRequest handlers req be we).2 = [Action.writeResp r.seq r.error (.headerItself r)] := by
  exact ⟨{ seq := req.seq, error := cantFind req.method }, rfl, rfl, by simp [readRequest, h]⟩

/-- Claim C10 witness: the concrete unknown method "bar". -/
theorem unknown_method_body_is_header_witness :
    ∃ r : Response, r.seq = 9 ∧ r.error = cantFind "bar" ∧
      (readRequest [] ⟨9, "bar"⟩ none none).2 =
        [Action.writeResp r.seq r.error (.headerItself r)] :=
  unknown_method_body_is_header [] ⟨9, "bar"⟩ none none rfl

/-- C8: `Notify` emits a request with seq 0 under the sending lock, leaves
the whole client state (in particular the pending table) untouched, and on
the handling side a request with seq 0 never produces a response write —
the handler's reply is dropped. -/
theorem notify_no_table_entry (s : ClientState) (method : String) (we : Option GoError)
    (req : Request) (herr : Option String)
    (h1 : s.shutdown = false) (h2 : s.closing = false) (h0 : req.seq = 0) :
    (notify s method we).1 = s ∧
    (notify s method we).2.2 = [.lockSending, .writeReq 0 method, .unlockSending] ∧
    (∀ q e b, Action.writeResp q e b ∉ handleRequest req herr) := by
  refine ⟨?_, ?_, ?_⟩ <;> simp [notify, handleRequest, h1, h2, h0]

/-- Claim C8 witness: a concrete notification "set" on a fresh client. -/
theorem notify_no_table_entry_witness :
    (notify initClient "set" none).1 = initClient ∧
    (notify initClient "set" none).2.2 = [.lockSending, .writeReq 0 "set", .unlockSending] ∧
    (∀ q e b, Action.writeResp q e b ∉ handleRequest ⟨0, "set"⟩ none) :=
  notify_no_table_entry initClient "set" none ⟨0, "set"⟩ none rfl rfl rfl

/-- Claim C9 counterexample: the claim says every task initiating a send —
including response emission for inbound dispatches — acquires the send
serializer before writing to the codec.  But `handleRequest` calls
`c.codec.WriteResponse` directly, without touching `c.sending`: its trace
performs a codec write at lock depth 0. -/
theorem response_write_without_send_lock :
    writesUnderSendLock (handleRequest ⟨7, "echo"⟩ none) 0 = false := by
  rfl

/-- C9 (amended): `send` (hence Call/Go and the cancel request, which go
through it) and `Notify` hold the send serializer across their codec
writes, but response emission — both a handler's response in
`handleRequest` and the unknown-method response in `readRequest` — writes
to the codec without acquiring the send serializer. -/
theorem send_lock_discipline :
    (∀ s c w, writesUnderSendLock (sendGo s c w).trace 0 = true) ∧
    (∀ s m w, writesUnderSendLock (notify s m w).2.2 0 = true) ∧
    (∀ (req : Request) herr, req.seq ≠ 0 →
      writesUnderSendLock (handleRequest req herr) 0 = false) ∧
    (∀ handlers (req : Request) be we, alookup handlers req.method = none →
      writesUnderSendLock (readRequest handlers req be we).2 0 = false) := by
  refine ⟨?_, ?_, ?_, ?_⟩
  · intro s c w
    unfold sendGo
    split
    · rfl
    · split
      · rfl
      · cases w with
        | none => rfl
        | some e =>
          simp only [alookup_ainsert]
          rfl
  · intro s m w
    unfold notify
    split <;> rfl
  · intro req herr h
    simp [handleRequest, h, writesUnderSendLock, isCodecWrite]
  · intro handlers req be we h
    simp [readRequest, h, writesUnderSendLock, isCodecWrite]

/-- Claim C9 witness: concrete instances of the four paths. -/
theorem send_lock_discipline_witness :
    writesUnderSendLock (sendGo initClient sampleCall none).trace 0 = true ∧
    writesUnderSendLock (notify initClient "set" none).2.2 0 = true ∧
    writesUnderSendLock (handleRequest ⟨3, "m"⟩ none) 0 = false ∧
    writesUnderSendLock (readRequest [] ⟨3, "m"⟩ none none).2 0 = false :=
  ⟨send_lock_discipline.1 initClient sampleCall none,
   send_lock_discipline.2.1 initClient "set" none,
   send_lock_discipline.2.2.1 ⟨3, "m"⟩ none (by decide),
   send_lock_discipline.2.2.2 [] ⟨3, "m"⟩ none none rfl⟩

/-- A call whose Done channel is already full (cap 1, len 1). -/
def fullChanCall : Call :=
  { method := "m", seq := 5, err := none, done := ⟨1, 1⟩, strobes := 0 }

/-- Claim C7 counterexample: the claim says every completing call receives
exactly one delivery on its Done channel — "never zero".  But
`call.done()` is a non-blocking send that silently discards the delivery
when the channel buffer is full: completing `fullChanCall` through
`readResponse` strobes it once (`strobes = 1`) yet delivers nothing
(`done.len` stays 1). -/
theorem done_delivery_dropped_on_full_channel :
    (readResponse [(5, fullChanCall)] ⟨5, ""⟩ none).2.1 =
      some { method := "m", seq := 5, err := none, done := ⟨1, 1⟩, strobes := 1 } := by
  rfl

/-- C3: on a live engine (not shut down, not closing): a fresh call
(seq 0) gets the next seq assigned, is inserted into the pending table,
and the request is written; when the write fails the entry for that seq is
removed again and the call completes with the write error (one strobe);
a pre-canceled call (seq ≠ 0 on entry) completes with the cancellation
error while neither the client state (pending table included) nor the wire
is touched. -/
theorem send_behavior (s : ClientState) (call : Call) (we : Option GoError)
    (h1 : s.shutdown = false) (h2 : s.closing = false) :
    (call.seq = 0 →
      (sendGo s call we).assigned = some s.seq ∧
      (sendGo s call we).state.seq = (s.seq + 1) % uint64Size ∧
      (we = none →
        alookup (sendGo s call we).state.pending s.seq = some { call with seq := s.seq } ∧
        Action.writeReq s.seq call.method ∈ (sendGo s call we).trace) ∧
      (∀ e, we = some e →
        alookup (sendGo s call we).state.pending s.seq = none ∧
        (sendGo s call we).call.err = some e ∧
        (sendGo s call we).call.strobes = call.strobes + 1 ∧
        Action.writeReq s.seq call.method ∈ (sendGo s call we).trace)) ∧
    (call.seq ≠ 0 →
      (sendGo s call we).call.err = some GoError.canceled ∧
      (sendGo s call we).call.strobes = call.strobes + 1 ∧
      (sendGo s call we).state = s ∧
      ∀ q m, Action.writeReq q m ∉ (sendGo s call we).trace) := by
  constructor
  · intro hc
    cases we with
    | none =>
      refine ⟨?_, ?_, ?_, ?_⟩ <;>
        simp [sendGo, h1, h2, hc, alookup_ainsert]
    | some e =>
      refine ⟨?_, ?_, ?_, ?_⟩ <;>
        simp [sendGo, h1, h2, hc, alookup_ainsert, alookup_aerase, callDone_strobes,
              callDone_err]
  · intro hc
    refine ⟨?_, ?_, ?_, ?_⟩ <;>
      simp [sendGo, h1, h2, hc, callDone_strobes, callDone_err]

/-- Claim C3 witness: a fresh call on a fresh client, write succeeding. -/
theorem send_behavior_witness :
    (sendGo initClient sampleCall none).assigned = some initClient.seq ∧
    (sendGo initClient sampleCall none).state.seq = (initClient.seq + 1) % uint64Size ∧
    alookup (sendGo initClient sampleCall none).state.pending initClient.seq =
      some { sampleCall with seq := initClient.seq } ∧
    (sendGo initClient sampleCall none).call.err = sampleCall.err := by
  have h := (send_behavior initClient sampleCall none rfl rfl).1 rfl
  exact ⟨h.1, h.2.1, (h.2.2.1 rfl).1, rfl⟩

/-- C4: when context cancellation wins over completion in `Call` (so an
entry for a sent call is still pending), the call's entry is removed from
the pending table; if the call had been sent (seq ≠ 0), a best-effort
request with method name `_goRPC_.Cancel` and argument payload
`CancelArgs{Seq: call.seq}` is issued to the peer; if it had not
(seq = 0), no cancel request is issued and the call's seq is stamped to 1
to veto a concurrent send; the value returned to the caller is the
context's cancellation error. -/
theorem call_ctx_cancel (pending : List (Nat × Call)) (call : Call) (ctxErr : GoError)
    (hwin : call.seq ≠ 0 → (alookup pending call.seq).isSome = true) :
    alookup (callCtxCancel pending call ctxErr).1 call.seq = none ∧
    (call.seq ≠ 0 →
      (callCtxCancel pending call ctxErr).2.2.1 = some (goRPCCancelName, ⟨call.seq⟩)) ∧
    (call.seq = 0 →
      (callCtxCancel pending call ctxErr).2.1.seq = 1 ∧
      (callCtxCancel pending call ctxErr).2.2.1 = none) ∧
    (callCtxCancel pending call ctxErr).2.2.2 = ctxErr := by
  refine ⟨?_, ?_, ?_, rfl⟩
  · exact alookup_aerase pending call.seq
  · intro h
    simp [callCtxCancel, h, hwin h]
  · intro h
    simp [callCtxCancel, h]

/-- Claim C4 witness: a sent call (seq 4) whose entry is still pending:
the issued request is `_goRPC_.Cancel` carrying `CancelArgs{Seq: 4}`. -/
theorem call_ctx_cancel_witness :
    alookup (callCtxCancel [(4, sentCall)] sentCall .canceled).1 sentCall.seq = none ∧
    (callCtxCancel [(4, sentCall)] sentCall .canceled).2.2.1 =
      some (goRPCCancelName, ⟨sentCall.seq⟩) ∧
    (callCtxCancel [(4, sentCall)] sentCall .canceled).2.2.2 = GoError.canceled := by
  have h := call_ctx_cancel [(4, sentCall)] sentCall .canceled (fun _ => rfl)
  exact ⟨h.1, h.2.1 (by decide), h.2.2.2⟩

/-- Strobe accounting along any call lifecycle that ends completed:
from `completed` nothing further happens; from `pendingP` or `unsent`
exactly one strobe remains; from `removedP` (cancel-removed) the call can
never complete at all. -/
theorem callTrace_completed_strobes {p : CallPhase} {n : Nat} {q : CallPhase}
    (tr : CallTrace p n q) : q = CallPhase.completed →
    (p = .completed → n = 0) ∧ (p = .pendingP → n = 1) ∧
    (p = .unsent → n = 1) ∧ (p = .removedP → False) := by
  induction tr with
  | nil p =>
    intro hq; subst hq
    refine ⟨fun _ => rfl, ?_, ?_, ?_⟩ <;> intro h <;> simp_all
  | cons step rest ih =>
    intro hq
    have ih2 := ih hq
    cases step with
    | sendShutdown =>
      have hm := ih2.1 rfl
      refine ⟨?_, ?_, ?_, ?_⟩ <;> intro h <;> simp_all
    | sendPrecanceled =>
      have hm := ih2.1 rfl
      refine ⟨?_, ?_, ?_, ?_⟩ <;> intro h <;> simp_all
    | ctxStampSeq =>
      have hm := ih2.2.2.1 rfl
      refine ⟨?_, ?_, ?_, ?_⟩ <;> intro h <;> simp_all
    | sendOk =>
      have hm := ih2.2.1 rfl
      refine ⟨?_, ?_, ?_, ?_⟩ <;> intro h <;> simp_all
    | writeFail =>
      have hm := ih2.1 rfl
      refine ⟨?_, ?_, ?_, ?_⟩ <;> intro h <;> simp_all
    | respOk =>
      have hm := ih2.1 rfl
      refine ⟨?_, ?_, ?_, ?_⟩ <;> intro h <;> simp_all
    | respErr =>
      have hm := ih2.1 rfl
      refine ⟨?_, ?_, ?_, ?_⟩ <;> intro h <;> simp_all
    | sweep =>
      have hm := ih2.1 rfl
      refine ⟨?_, ?_, ?_, ?_⟩ <;> intro h <;> simp_all
    | cancelRemove =>
      exact (ih2.2.2.2 rfl).elim

/-- C7 (amended): every lifecycle of an outbound call that reaches
completion through the engine's paths (response arrival, error response,
send failure, shutdown drain, or the early-return completions of `send`)
invokes `call.done()` exactly once; each invocation bumps the strobe count
by one and delivers the call into the Done channel iff the channel has
spare buffer capacity — when the buffer is full the delivery is dropped
(zero deliveries). -/
theorem call_strobed_once :
    (∀ n, CallTrace .unsent n .completed → n = 1) ∧
    (∀ c : Call, (callDone c).strobes = c.strobes + 1 ∧
      (callDone c).done.len =
        (if c.done.len < c.done.cap then c.done.len + 1 else c.done.len)) := by
  constructor
  · intro n tr
    exact (callTrace_completed_strobes tr rfl).2.2.1 rfl
  · intro c
    refine ⟨callDone_strobes c, ?_⟩
    unfold callDone
    split <;> simp

/-- Claim C7 witness: the trace send-then-response strobes once, and a
concrete strobe on a channel with space delivers. -/
theorem call_strobed_once_witness :
    0 + (1 + 0) = 1 ∧ (callDone sampleCall).strobes = 1 := by
  constructor
  · exact call_strobed_once.1 _
      (CallTrace.cons CallStep.sendOk (CallTrace.cons CallStep.respOk (CallTrace.nil _)))
  · have h := (call_strobed_once.2 sampleCall).1
    simpa [sampleCall] using h

/-- C5: on read-loop exit the shutdown flag is set; an EOF error is
translated to `ErrShutdown` when the local side asked to close and to
`io.ErrUnexpectedEOF` otherwise; every entry remaining in the pending
table is assigned that error and strobed, and its completion appears in
the trace; the disconnect channel is closed exactly once, and every
pending completion happens before it; the codec is closed iff the local
side was not already closing. -/
theorem read_loop_exit (s : ClientState) (err0 : GoError) :
    (readLoopExit s err0).1.shutdown = true ∧
    (err0 = GoError.ioEOF →
      (readLoopExit s err0).2.1 =
        (if s.closing then GoError.errShutdown else GoError.errUnexpectedEOF)) ∧
    (∀ k c, (k, c) ∈ s.pending →
      (k, callDone { c with err := some (readLoopExit s err0).2.1 }) ∈
          (readLoopExit s err0).1.pending ∧
      Action.completeCall k (readLoopExit s err0).2.1 ∈ (readLoopExit s err0).2.2) ∧
    (readLoopExit s err0).2.2.count Action.closeDisconnect = 1 ∧
    (∃ pre post, (readLoopExit s err0).2.2 = pre ++ Action.closeDisconnect :: post ∧
      (∀ k c, (k, c) ∈ s.pending →
        Action.completeCall k (readLoopExit s err0).2.1 ∈ pre) ∧
      (∀ k e, Action.completeCall k e ∉ post) ∧
      Action.closeDisconnect ∉ pre ∧ Action.closeDisconnect ∉ post) ∧
    ((Action.closeCodec ∈ (readLoopExit s err0).2.2) ↔ s.closing = false) := by
  refine ⟨rfl, ?_, ?_, ?_, ?_, ?_⟩
  · intro h
    subst h
    simp [readLoopExit, exitErr]
  · intro k c hm
    constructor
    · exact List.mem_map.mpr ⟨(k, c), hm, rfl⟩
    · show Action.completeCall k (exitErr err0 s.closing) ∈ _ ++ _ ++ _ ++ _
      apply List.mem_append_left
      apply List.mem_append_left
      apply List.mem_append_right
      exact List.mem_map.mpr ⟨(k, c), hm, rfl⟩
  · have hM : ∀ b, (s.pending.map
        (fun p => Action.completeCall p.1 (exitErr err0 b))).count
          Action.closeDisconnect = 0 := by
      intro b
      refine List.count_eq_zero.mpr ?_
      simp
    show ([Action.lockSending, Action.lockMutex] ++ _ ++ _ ++ _).count _ = 1
    by_cases hc : s.closing <;>
      simp [List.count_append, hM, hc]
  · refine ⟨[Action.lockSending, Action.lockMutex]
        ++ s.pending.map (fun p => Action.completeCall p.1 (exitErr err0 s.closing))
        ++ [Action.unlockMutex, Action.unlockSending],
      (if s.closing then [] else [Action.closeCodec]), ?_, ?_, ?_, ?_, ?_⟩
    · show _ ++ _ ++ _ ++ _ = _
      simp
    · intro k c hm
      apply List.mem_append_left
      apply List.mem_append_right
      exact List.mem_map.mpr ⟨(k, c), hm, rfl⟩
    · intro k e
      by_cases hc : s.closing <;> simp [hc]
    · simp
    · by_cases hc : s.closing <;> simp [hc]
  · show (Action.closeCodec ∈ _ ++ _ ++ _ ++ _) ↔ _
    by_cases hc : s.closing <;> simp [hc]

/-- Claim C5 witness: a closing peer with one pending call hitting EOF. -/
theorem read_loop_exit_witness :
    (readLoopExit { initClient with pending := [(1, sentCall)], closing := true }
        GoError.ioEOF).1.shutdown = true ∧
    (readLoopExit { initClient with pending := [(1, sentCall)], closing := true }
        GoError.ioEOF).2.1 = GoError.errShutdown ∧
    Action.completeCall 1 GoError.errShutdown ∈
      (readLoopExit { initClient with pending := [(1, sentCall)], closing := true }
        GoError.ioEOF).2.2 := by
  have h := read_loop_exit { initClient with pending := [(1, sentCall)], closing := true }
    GoError.ioEOF
  have herr := h.2.1 rfl
  refine ⟨h.1, by simpa using herr, ?_⟩
  have hmem := (h.2.2.1 1 sentCall (by simp)).2
  simpa [herr] using hmem

/-- Runs of `range'` whose starts agree modulo `uint64Size` agree after
reducing every element modulo `uint64Size`. -/
theorem range'_map_mod (k : Nat) : ∀ a b, a % uint64Size = b % uint64Size →
    (List.range' a k).map (· % uint64Size) = (List.range' b k).map (· % uint64Size) := by
  induction k with
  | zero =>
    intro a b h
    simp
  | succ k ih =>
    intro a b h
    have h2 : (a + 1) % uint64Size = (b + 1) % uint64Size := by
      rw [Nat.add_mod a 1, Nat.add_mod b 1, h]
    rw [List.range'_succ, List.range'_succ, List.map_cons, List.map_cons, h,
        ih (a + 1) (b + 1) h2]

/-- The seqs `send` assigns, starting from any live state whose counter is
a valid uint64 value, are the consecutive run from that counter reduced
modulo `uint64Size` (the counter wraps), one per operation that reaches
the assignment (fresh call, seq 0). -/
theorem runSends_assigned (ops : List (Call × Option GoError)) :
    ∀ s : ClientState, s.shutdown = false → s.closing = false → s.seq < uint64Size →
      (runSends s ops).2 =
        (List.range' s.seq (ops.countP (fun op => op.1.seq == 0))).map
          (· % uint64Size) := by
  induction ops with
  | nil =>
    intro s h1 h2 h3
    simp [runSends]
  | cons op rest ih =>
    intro s h1 h2 h3
    obtain ⟨c, w⟩ := op
    by_cases hc : c.seq = 0
    · have hlt : (s.seq + 1) % uint64Size < uint64Size := Nat.mod_lt _ uint64Size_pos
      have hmm : (s.seq + 1) % uint64Size % uint64Size = (s.seq + 1) % uint64Size :=
        Nat.mod_mod_of_dvd _ dvd_rfl
      cases w with
      | none =>
        have ih2 := ih ⟨(s.seq + 1) % uint64Size,
            ainsert s.pending s.seq ({ c with seq := s.seq }),
            s.closing, s.shutdown, s.server⟩ h1 h2 hlt
        simp only [h1, h2] at ih2
        rw [range'_map_mod _ ((s.seq + 1) % uint64Size) (s.seq + 1) hmm] at ih2
        simp [runSends, sendGo, h1, h2, hc, List.countP_cons, List.range'_succ,
              Nat.mod_eq_of_lt h3, ih2]
      | some e =>
        have ih2 := ih ⟨(s.seq + 1) % uint64Size,
            aerase (ainsert s.pending s.seq ({ c with seq := s.seq })) s.seq,
            s.closing, s.shutdown, s.server⟩ h1 h2 hlt
        simp only [h1, h2] at ih2
        rw [range'_map_mod _ ((s.seq + 1) % uint64Size) (s.seq + 1) hmm] at ih2
        simp [runSends, sendGo, h1, h2, hc, List.countP_cons, List.range'_succ,
              Nat.mod_eq_of_lt h3, alookup_ainsert, ih2]
    · have ih2 := ih s h1 h2 h3
      simp [runSends, sendGo, h1, h2, hc, List.countP_cons, ih2]

/-- Claim C2 counterexample: the claim, as stated, quantifies over every
sequence of send operations and says 0 is never assigned and seqs never
repeat.  The source's counter is a `uint64` and `c.seq++` wraps: after
`2^64` assignments starting from 1, the counter has wrapped past
`2^64 - 1` and the last assigned seq is 0 — the reserved notification
value. -/
theorem seq_wraps :
    0 ∈ (runSends initClient (List.replicate uint64Size (sampleCall, none))).2 := by
  have h0 : initClient.seq < uint64Size := by norm_num [initClient, uint64Size]
  have h := runSends_assigned (List.replicate uint64Size (sampleCall, none))
    initClient rfl rfl h0
  have hcount : (List.replicate uint64Size ((sampleCall, none) : Call × Option GoError)).countP
      (fun op => op.1.seq == 0) = uint64Size := by
    rw [List.countP_replicate]
    simp [sampleCall]
  rw [hcount] at h
  rw [h]
  refine List.mem_map.mpr ⟨uint64Size, ?_, Nat.mod_self uint64Size⟩
  rw [List.mem_range'_1]
  have hw := uint64Size_pos
  have h1 : initClient.seq = 1 := rfl
  omega

/-- C2 (amended): starting from a fresh client (seq counter 1), as long as
fewer than `2^64` seqs are assigned in the peer's lifetime (the `uint64`
counter has not wrapped), the seqs assigned by a sequence of `send`
operations are exactly `[1, 2, …, k]` (one per send that reaches the
assignment): the i-th assigned seq equals i, they are strictly
increasing, none repeats, and 0 is never assigned. -/
theorem seq_assignment (ops : List (Call × Option GoError))
    (hk : ops.countP (fun op => op.1.seq == 0) ≤ uint64Size - 1) :
    (runSends initClient ops).2 =
      List.range' 1 (ops.countP (fun op => op.1.seq == 0)) ∧
    (runSends initClient ops).2.Nodup ∧
    List.Chain' (· < ·) (runSends initClient ops).2 ∧
    0 ∉ (runSends initClient ops).2 := by
  have h0 : initClient.seq < uint64Size := by norm_num [initClient, uint64Size]
  have h := runSends_assigned ops initClient rfl rfl h0
  have hw := uint64Size_pos
  have hid : ∀ x ∈ List.range' initClient.seq (ops.countP (fun op => op.1.seq == 0)),
      x % uint64Size = x := by
    intro x hx
    rw [List.mem_range'_1] at hx
    refine Nat.mod_eq_of_lt ?_
    have h1 : initClient.seq = 1 := rfl
    omega
  rw [List.map_congr_left hid, List.map_id'] at h
  refine ⟨h, ?_, ?_, ?_⟩
  · rw [h]
    exact List.nodup_range' 1 _
  · rw [h]
    exact (List.pairwise_lt_range' 1 _).chain'
  · rw [h]
    simp [initClient]

/-- Claim C2 witness: two fresh sends assign seqs 1 and 2. -/
theorem seq_assignment_witness :
    (runSends initClient [(sampleCall, none), (sampleCall, none)]).2 = [1, 2] := by
  have hk : ([(sampleCall, none), (sampleCall, none)] :
      List (Call × Option GoError)).countP (fun op => op.1.seq == 0) ≤ uint64Size - 1 := by
    norm_num [sampleCall, uint64Size]
  have h := (seq_assignment [(sampleCall, none), (sampleCall, none)] hk).1
  simpa [sampleCall, List.range'] using h

end Birpc
